import Mathlib

/-!
Shallow embedding of the EmbedIDS core detection engine (embedids.c).

Modelling conventions:
- C pointers that may be NULL are modelled as `Option`; a NULL context,
  buffer or name is `none`.
- The 32-bit and 64-bit C floats are modelled as exact rationals (`Rat`);
  all arithmetic the engine performs on them (sums, differences, division
  by a small count, multiplication by the 0.05 constant, comparisons) is
  carried out exactly.
- C strings are byte lists; reading past the end of the list yields the
  NUL terminator, matching a terminated C string.
- Mutation through pointers is modelled by state passing: every operation
  that can write through the context returns the new context.
- `List.set` is a no-op out of bounds and `n % 0 = n` for `Nat`; these
  conventions only matter on inputs where the C code itself performs an
  out-of-bounds write or a modulo by zero (undefined behavior), namely a
  metric whose declared capacity is 0.
-/

namespace EmbedIDS

/-- Result codes (embedids_result_t). -/
inductive EResult where
  | ok
  | invalidParam
  | notInitialized
  | alreadyInitialized
  | configInvalid
  | outOfMemory
  | bufferFull
  | bufferCorrupt
  | alignmentError
  | metricNotFound
  | metricDisabled
  | metricTypeMismatch
  | metricNameTooLong
  | algorithmFailed
  | algorithmNotSupported
  | customAlgorithmNull
  | thresholdExceeded
  | trendAnomaly
  | customDetection
  | statisticalAnomaly
  | timeout
  | hardwareFault
  | timestampInvalid
  | threadUnsafe
  deriving DecidableEq, Repr, Inhabited

/-- Trend direction classification (embedids_trend_t). -/
inductive ETrend where
  | stable
  | increasing
  | decreasing
  deriving DecidableEq, Repr, Inhabited

/-- Declared metric value types (embedids_metric_type_t), with both
floating-point compile-time switches enabled. -/
inductive EMetricType where
  | uint32
  | uint64
  | float
  | percentage
  | rate
  | double
  | boolean
  | enum
  deriving DecidableEq, Repr, Inhabited

/-- Metric value (embedids_metric_value_t). The C type is a union; the
engine only ever reads the field selected by the owning metric's declared
type, so the union is modelled as a record of independent fields. -/
structure EValue where
  u32 : Nat := 0
  u64 : Nat := 0
  f32 : Rat := 0
  f64 : Rat := 0
  boolean : Bool := false
  enum_val : Nat := 0
  deriving DecidableEq, Repr, Inhabited

/-- One timestamped sample (embedids_metric_datapoint_t). -/
structure EDatapoint where
  value : EValue := {}
  timestamp_ms : Nat := 0
  deriving DecidableEq, Repr, Inhabited

/-- One named time series (embedids_metric_t). `history` is `none` for a
NULL buffer pointer, otherwise the buffer contents. -/
structure EMetric where
  name : List Nat := []
  type : EMetricType := .uint32
  history : Option (List EDatapoint) := none
  max_history_size : Nat := 0
  current_size : Nat := 0
  write_index : Nat := 0
  enabled : Bool := false
  deriving DecidableEq, Repr, Inhabited

/-- Threshold algorithm configuration (embedids_threshold_config_t). -/
structure EThresholdConfig where
  min_threshold : EValue := {}
  max_threshold : EValue := {}
  check_min : Bool := false
  check_max : Bool := false
  deriving DecidableEq, Repr, Inhabited

/-- Trend algorithm configuration (embedids_trend_config_t). -/
structure ETrendConfig where
  window_size : Nat := 0
  max_slope : Rat := 0
  max_variance : Rat := 0
  expected_trend : ETrend := .stable
  deriving DecidableEq, Repr, Inhabited

/-- Custom algorithm configuration (embedids_custom_config_t). The C
callback receives the metric, an opaque configuration pointer and an
opaque mutable context pointer; the two opaque words are modelled as
naturals and mutation through the context pointer is modelled by the
callback returning the new context contents alongside its result. -/
structure ECustomConfig where
  function : Option (EMetric → Nat → Nat → EResult × Nat) := none
  config : Nat := 0
  context : Nat := 0
  deriving Inhabited

/-- Algorithm kind tag plus the matching member of the C configuration
union; the engine always reads the union member selected by the tag, so
tag and union are modelled together as a sum. -/
inductive EAlgorithmKind where
  | threshold (cfg : EThresholdConfig)
  | trend (cfg : ETrendConfig)
  | custom (cfg : ECustomConfig)
  deriving Inhabited

/-- One detection strategy attached to a metric (embedids_algorithm_t). -/
structure EAlgorithm where
  kind : EAlgorithmKind
  enabled : Bool := false
  deriving Inhabited

/-- One metric plus its algorithm list (embedids_metric_config_t). -/
structure EMetricConfig where
  metric : EMetric := {}
  algorithms : List EAlgorithm := []
  num_algorithms : Nat := 0
  deriving Inhabited

/-- System configuration (embedids_system_config_t). The opaque
user-context pointer is stored by the host and never read by the engine
sources modelled here, so it is omitted. -/
structure ESystemConfig where
  metrics : List EMetricConfig := []
  num_active_metrics : Nat := 0
  max_metrics : Nat := 0
  deriving Inhabited

/-- The context handle (embedids_context_t); `system_config` is `none`
for a NULL configuration pointer. -/
structure EContext where
  system_config : Option ESystemConfig := none
  initialized : Bool := false
  deriving Inhabited

/-- Modelled from the spec: EMBEDIDS_MAX_METRIC_NAME_LEN is defined in the
public header, which is not among the implementation sources; the spec
fixes a concrete fixed maximum metric-name length of 32 bytes. -/
def EMBEDIDS_MAX_METRIC_NAME_LEN : Nat := 32

/-- C strncmp(a, b, n) == 0 on byte lists: positions past the end of a
list read as the NUL terminator, comparison stops at the first NUL or
after n bytes. -/
def strncmpEq : List Nat → List Nat → Nat → Bool
  | _, _, 0 => true
  | a, b, n + 1 =>
    a.headD 0 == b.headD 0 && (a.headD 0 == 0 || strncmpEq a.tail b.tail n)

/-- Index of the first list element satisfying p, if any. -/
def findFirst {α : Type} (p : α → Bool) : List α → Option Nat
  | [] => none
  | a :: l => if p a then some 0 else (findFirst p l).map (· + 1)

/-- The metric-lookup scan of find_metric_config over the active metrics
of a system configuration, returning the index of the first name match. -/
def find_metric_idx (sc : ESystemConfig) (metric_name : List Nat) : Option Nat :=
  findFirst
    (fun cfg => strncmpEq cfg.metric.name metric_name EMBEDIDS_MAX_METRIC_NAME_LEN)
    (sc.metrics.take sc.num_active_metrics)

/-- find_metric_config: NULL context configuration yields no match;
otherwise the scan above. (The returned pointer is modelled as the index
of the matched metric configuration.) -/
def find_metric_config (ctx : EContext) (metric_name : List Nat) : Option Nat :=
  match ctx.system_config with
  | none => none
  | some sc => find_metric_idx sc metric_name

/-- The metric configuration at index i of a system configuration. -/
def metricAt (sc : ESystemConfig) (i : Nat) : EMetricConfig :=
  sc.metrics.getD i default

/-- Replace the metric configuration at index i, state-passing form of a
write through the config pointer returned by find_metric_config. -/
def setMetric (ctx : EContext) (sc : ESystemConfig) (i : Nat) (cfg : EMetricConfig) : EContext :=
  { ctx with system_config := some { sc with metrics := sc.metrics.set i cfg } }

/-- Read of history slot i. A NULL buffer reads as an empty buffer and an
out-of-range slot as a zeroed datapoint; the C code would be undefined on
those reads and never performs them on well-formed metrics. -/
def histGet (m : EMetric) (i : Nat) : EDatapoint :=
  (m.history.getD []).getD i default

/-- embedids_add_datapoint on a non-NULL context. -/
def embedids_add_datapoint_core (ctx : EContext) (metric_name? : Option (List Nat))
    (value : EValue) (timestamp_ms : Nat) : EResult × EContext :=
  if ctx.initialized = false then (.notInitialized, ctx) else
  match metric_name? with
  | none => (.invalidParam, ctx)
  | some name =>
    match ctx.system_config with
    | none => (.metricNotFound, ctx)
    | some sc =>
      match find_metric_idx sc name with
      | none => (.metricNotFound, ctx)
      | some i =>
        let cfg := metricAt sc i
        let m := cfg.metric
        if m.enabled = false then (.metricDisabled, ctx) else
        match m.history with
        | none => (.invalidParam, ctx)
        | some hist =>
          let m' := { m with
            history := some (hist.set m.write_index { value := value, timestamp_ms := timestamp_ms }),
            write_index := (m.write_index + 1) % m.max_history_size,
            current_size :=
              if m.current_size < m.max_history_size then m.current_size + 1
              else m.current_size }
          (.ok, setMetric ctx sc i { cfg with metric := m' })

/-- embedids_add_datapoint, including the NULL-context guard. -/
def embedids_add_datapoint (ctx? : Option EContext) (metric_name? : Option (List Nat))
    (value : EValue) (timestamp_ms : Nat) : EResult × Option EContext :=
  match ctx? with
  | none => (.notInitialized, none)
  | some ctx =>
    let r := embedids_add_datapoint_core ctx metric_name? value timestamp_ms
    (r.1, some r.2)

/-- run_threshold_algorithm: compare the single most recent sample against
the enabled bounds, using the comparison selected by the declared type. -/
def run_threshold_algorithm (metric : EMetric) (config : EThresholdConfig) : EResult :=
  if metric.current_size = 0 then .ok
  else
    let latest_index :=
      if metric.write_index > 0 then metric.write_index - 1
      else metric.max_history_size - 1
    let latest_value := (histGet metric latest_index).value
    match metric.type with
    | .uint32 =>
      if config.check_min = true ∧ latest_value.u32 < config.min_threshold.u32 then
        .thresholdExceeded
      else if config.check_max = true ∧ latest_value.u32 > config.max_threshold.u32 then
        .thresholdExceeded
      else .ok
    | .uint64 =>
      if config.check_min = true ∧ latest_value.u64 < config.min_threshold.u64 then
        .thresholdExceeded
      else if config.check_max = true ∧ latest_value.u64 > config.max_threshold.u64 then
        .thresholdExceeded
      else .ok
    | .float | .percentage | .rate =>
      if config.check_min = true ∧ latest_value.f32 < config.min_threshold.f32 then
        .thresholdExceeded
      else if config.check_max = true ∧ latest_value.f32 > config.max_threshold.f32 then
        .thresholdExceeded
      else .ok
    | .double =>
      if config.check_min = true ∧ latest_value.f64 < config.min_threshold.f64 then
        .thresholdExceeded
      else if config.check_max = true ∧ latest_value.f64 > config.max_threshold.f64 then
        .thresholdExceeded
      else .ok
    | .boolean => .ok
    | .enum =>
      if config.check_min = true ∧ latest_value.enum_val < config.min_threshold.enum_val then
        .thresholdExceeded
      else if config.check_max = true ∧ latest_value.enum_val > config.max_threshold.enum_val then
        .thresholdExceeded
      else .ok

/-- run_trend_algorithm: the C body only contains the not-enough-data
early return and a placeholder that also returns OK. -/
def run_trend_algorithm (metric : EMetric) (config : ETrendConfig) : EResult :=
  if metric.current_size < config.window_size ∨ config.window_size < 2 then
    .ok
  else
    .ok

/-- Dispatch of one enabled algorithm inside embedids_analyze_metric;
returns the algorithm slot back (updated only when a custom callback ran,
to model writes through its mutable context pointer). -/
def runOneAlgorithm (m : EMetric) (a : EAlgorithm) : EResult × EAlgorithm :=
  match a.kind with
  | .threshold tc => (run_threshold_algorithm m tc, a)
  | .trend tc => (run_trend_algorithm m tc, a)
  | .custom cc =>
    match cc.function with
    | none => (.ok, a)
    | some f =>
      let r := f m cc.config cc.context
      (r.1, { a with kind := .custom { cc with context := r.2 } })

/-- The algorithm loop of embedids_analyze_metric over the populated
algorithm slots: skip disabled slots, stop at the first result other than
OK. -/
def run_algorithms (m : EMetric) : List EAlgorithm → EResult × List EAlgorithm
  | [] => (.ok, [])
  | a :: rest =>
    if a.enabled = false then
      let r := run_algorithms m rest
      (r.1, a :: r.2)
    else
      let ra := runOneAlgorithm m a
      if ra.1 = EResult.ok then
        let r := run_algorithms m rest
        (r.1, ra.2 :: r.2)
      else (ra.1, ra.2 :: rest)

/-- embedids_analyze_metric on a non-NULL context. -/
def embedids_analyze_metric_core (ctx : EContext) (metric_name? : Option (List Nat)) :
    EResult × EContext :=
  if ctx.initialized = false then (.notInitialized, ctx) else
  match metric_name? with
  | none => (.invalidParam, ctx)
  | some name =>
    match ctx.system_config with
    | none => (.metricNotFound, ctx)
    | some sc =>
      match find_metric_idx sc name with
      | none => (.metricNotFound, ctx)
      | some i =>
        let cfg := metricAt sc i
        if cfg.metric.enabled = false then (.metricDisabled, ctx) else
        let r := run_algorithms cfg.metric (cfg.algorithms.take cfg.num_algorithms)
        let cfg' := { cfg with algorithms := r.2 ++ cfg.algorithms.drop cfg.num_algorithms }
        (r.1, setMetric ctx sc i cfg')

/-- embedids_analyze_metric, including the NULL-context guard. -/
def embedids_analyze_metric (ctx? : Option EContext) (metric_name? : Option (List Nat)) :
    EResult × Option EContext :=
  match ctx? with
  | none => (.notInitialized, none)
  | some ctx =>
    let r := embedids_analyze_metric_core ctx metric_name?
    (r.1, some r.2)

/-- The metric loop of embedids_analyze_all: index i runs while it is
below the active-metric count, disabled metrics are skipped, the first
result other than OK is returned immediately. Fuel bounds the number of
iterations; analyze_all supplies the active-metric count, which no
analysis step changes. -/
def analyze_all_loop : EContext → Nat → Nat → EResult × EContext
  | ctx, _, 0 => (.ok, ctx)
  | ctx, i, fuel + 1 =>
    match ctx.system_config with
    | none => (.ok, ctx)
    | some sc =>
      if i < sc.num_active_metrics then
        let cfg := metricAt sc i
        if cfg.metric.enabled = true then
          let r := embedids_analyze_metric_core ctx (some cfg.metric.name)
          if r.1 = EResult.ok then analyze_all_loop r.2 (i + 1) fuel
          else (r.1, r.2)
        else analyze_all_loop ctx (i + 1) fuel
      else (.ok, ctx)

/-- embedids_analyze_all on a non-NULL context. -/
def embedids_analyze_all_core (ctx : EContext) : EResult × EContext :=
  if ctx.initialized = false then (.notInitialized, ctx) else
  match ctx.system_config with
  | none => (.ok, ctx)
  | some sc => analyze_all_loop ctx 0 sc.num_active_metrics

/-- embedids_analyze_all, including the NULL-context guard. -/
def embedids_analyze_all (ctx? : Option EContext) : EResult × Option EContext :=
  match ctx? with
  | none => (.notInitialized, none)
  | some ctx =>
    let r := embedids_analyze_all_core ctx
    (r.1, some r.2)

/-- embedids_cleanup: memset the context to zero; a NULL context is left
alone. -/
def embedids_cleanup (ctx? : Option EContext) : Option EContext :=
  match ctx? with
  | none => none
  | some _ => some {}

/-- embedids_is_initialized. -/
def embedids_is_initialized (ctx? : Option EContext) : Bool :=
  match ctx? with
  | none => false
  | some ctx => ctx.initialized

/-- The per-type float extraction used inside embedids_get_trend; `none`
for the types its switch sends to the default / stable cases. -/
def trendVal (ty : EMetricType) (v : EValue) : Option Rat :=
  match ty with
  | .uint32 => some (v.u32 : Rat)
  | .uint64 => some (v.u64 : Rat)
  | .float => some v.f32
  | .percentage => some v.f32
  | .rate => some v.f32
  | _ => none

/-- Whether embedids_get_trend supports the type numerically. -/
def trendSupported (ty : EMetricType) : Bool :=
  match ty with
  | .uint32 | .uint64 | .float | .percentage | .rate => true
  | _ => false

/-- The float extraction with the C fallback value 1.0 for unsupported
types (only ever reached for first_val in the C code). -/
def trendValD (ty : EMetricType) (v : EValue) : Rat :=
  (trendVal ty v).getD 1

/-- The trend computation of embedids_get_trend on the matched, enabled
metric. The unsupported-type early return fires on the first loop
iteration in C, which always runs once current_size is at least 2, so it
is equivalent to the upfront test here. -/
def get_trend_value (m : EMetric) : ETrend :=
  if m.current_size < 2 then .stable
  else if trendSupported m.type = false then .stable
  else
    let start_index := if m.current_size = m.max_history_size then m.write_index else 0
    let num_points := if m.current_size < 3 then m.current_size else 3
    let sum_change : Rat :=
      ((List.range (num_points - 1)).map (fun j =>
          trendValD m.type (histGet m ((start_index + j + 1) % m.max_history_size)).value
        - trendValD m.type (histGet m ((start_index + j) % m.max_history_size)).value)).sum
    let changes := num_points - 1
    if changes = 0 then .stable
    else
      let avg_change := sum_change / (changes : Rat)
      let first_idx := if m.current_size = m.max_history_size then m.write_index else 0
      let first_val := trendValD m.type (histGet m first_idx).value
      let threshold : Rat :=
        if |first_val| * (1 / 20) < 1 then 1 else |first_val| * (1 / 20)
      if |avg_change| < threshold then .stable
      else if avg_change > 0 then .increasing
      else .decreasing

/-- embedids_get_trend on a non-NULL context. `trend_null` is true when
the out-pointer for the trend is NULL; the written trend value (if any)
is returned instead of written through the pointer. The function never
writes through the context. -/
def embedids_get_trend_core (ctx : EContext) (metric_name? : Option (List Nat))
    (trend_null : Bool) : EResult × Option ETrend :=
  if ctx.initialized = false then (.notInitialized, none) else
  match metric_name?, trend_null with
  | none, _ => (.invalidParam, none)
  | some _, true => (.invalidParam, none)
  | some name, false =>
    match ctx.system_config with
    | none => (.metricNotFound, none)
    | some sc =>
      match find_metric_idx sc name with
      | none => (.metricNotFound, none)
      | some i =>
        let cfg := metricAt sc i
        if cfg.metric.enabled = false then (.metricDisabled, none)
        else (.ok, some (get_trend_value cfg.metric))

/-- embedids_get_trend, including the NULL-context guard. -/
def embedids_get_trend (ctx? : Option EContext) (metric_name? : Option (List Nat))
    (trend_null : Bool) : EResult × Option ETrend :=
  match ctx? with
  | none => (.notInitialized, none)
  | some ctx => embedids_get_trend_core ctx metric_name? trend_null

/-- The per-metric body of embedids_reset_all_metrics: zero the counters
and, for a non-NULL buffer, memset max_history_size slots to zero. -/
def reset_metric (cfg : EMetricConfig) : EMetricConfig :=
  let m := cfg.metric
  { cfg with metric := { m with
      current_size := 0,
      write_index := 0,
      history := match m.history with
        | none => none
        | some _ => some (List.replicate m.max_history_size default) } }

/-- embedids_reset_all_metrics on a non-NULL context. -/
def embedids_reset_all_metrics_core (ctx : EContext) : EResult × EContext :=
  if ctx.initialized = false then (.notInitialized, ctx) else
  match ctx.system_config with
  | none => (.ok, ctx)
  | some sc =>
    let metrics' :=
      (sc.metrics.take sc.num_active_metrics).map reset_metric
        ++ sc.metrics.drop sc.num_active_metrics
    (.ok, { ctx with system_config := some { sc with metrics := metrics' } })

/-- embedids_reset_all_metrics, including the NULL-context guard. -/
def embedids_reset_all_metrics (ctx? : Option EContext) : EResult × Option EContext :=
  match ctx? with
  | none => (.notInitialized, none)
  | some ctx =>
    let r := embedids_reset_all_metrics_core ctx
    (r.1, some r.2)

/-! Specification-side definitions, written to the spec's and the claims'
words, for comparison with the engine definitions above. -/

/-- Average-change trend classification over a window of values listed
oldest to newest, following the spec's description: average the
consecutive differences, take the threshold max(|first| * 0.05, 1.0),
report Stable for a small average change, otherwise the sign. -/
def classifyWindow (w : List Rat) : ETrend :=
  match w with
  | [] => .stable
  | first :: _ =>
    if w.length - 1 = 0 then .stable
    else
      let avg := ((w.zip w.tail).map (fun p => p.2 - p.1)).sum / ((w.length - 1 : Nat) : Rat)
      let threshold := max (|first| * (1 / 20)) 1
      if |avg| < threshold then .stable
      else if avg > 0 then .increasing
      else .decreasing

/-- The min(currentSize, 3) oldest retained samples of a metric, oldest
to newest, as floats: the oldest retained sample sits at index 0 while
the buffer is not yet full and at the write cursor once it is. -/
def oldestWindow (m : EMetric) : List Rat :=
  let start := if m.current_size = m.max_history_size then m.write_index else 0
  (List.range (min m.current_size 3)).map
    (fun j => trendValD m.type (histGet m ((start + j) % m.max_history_size)).value)

/-- The window named by claim C1: the min(currentSize, 3) most recent
samples, oldest to newest, as floats. -/
def recentWindow (m : EMetric) : List Rat :=
  let n := min m.current_size 3
  (List.range n).map
    (fun j =>
      trendValD m.type
        (histGet m ((m.write_index + m.max_history_size - n + j) % m.max_history_size)).value)

/-- GetTrend as worded by claim C1: classify over the most recent window. -/
def claimGetTrend (m : EMetric) : ETrend := classifyWindow (recentWindow m)

/-- All retained samples of a metric in chronological order, as floats. -/
def chronValues (m : EMetric) : List Rat :=
  let start := if m.current_size = m.max_history_size then m.write_index else 0
  (List.range m.current_size).map
    (fun j => trendValD m.type (histGet m ((start + j) % m.max_history_size)).value)

/-- The result an algorithm slot contributes when analyzed, as worded by
the spec: the built-in result for its kind, the callback result for a
registered custom detector, OK for an unregistered one. -/
def algRunResult (m : EMetric) (a : EAlgorithm) : EResult :=
  (runOneAlgorithm m a).1

/-- Claim C6's wording of the per-metric analysis result: the result of
the first enabled algorithm in stored order that does not pass, OK when
every enabled algorithm passes or there are none. -/
def firstFailure (m : EMetric) : List EAlgorithm → EResult
  | [] => .ok
  | a :: rest =>
    if a.enabled = true ∧ algRunResult m a ≠ .ok then algRunResult m a
    else firstFailure m rest

/-- True when the algorithm slot carries no registered custom callback
(built-in kinds, or a custom slot with no function). -/
def algHasNoCustomFn (a : EAlgorithm) : Bool :=
  match a.kind with
  | .custom cc => cc.function.isNone
  | _ => true

/-- True when no metric of the context carries a registered custom
callback. -/
def ctxNoCustomFn (ctx : EContext) : Bool :=
  match ctx.system_config with
  | none => true
  | some sc => sc.metrics.all (fun cfg => cfg.algorithms.all algHasNoCustomFn)

/-! Concrete-input builders used by the counterexamples and witnesses. -/

/-- A float datapoint. -/
def floatDp (q : Rat) : EDatapoint := { value := { f32 := q } }

/-- A float history buffer holding the given values at indices 0, 1, .... -/
def floatHistory (vals : List Rat) : List EDatapoint := vals.map floatDp

/-- A float metric over the given buffer contents. -/
def mkFloatMetric (name : List Nat) (vals : List Rat) (cap size wi : Nat) : EMetric :=
  { name := name, type := .float, history := some (floatHistory vals),
    max_history_size := cap, current_size := size, write_index := wi,
    enabled := true }

/-- An initialized one-metric context. -/
def mkCtx1 (cfg : EMetricConfig) : EContext :=
  { system_config := some { metrics := [cfg], num_active_metrics := 1, max_metrics := 1 },
    initialized := true }

/-- The index the threshold algorithm reads: write cursor minus one,
wrapping to the last slot when the cursor is zero. -/
def latestIndex (m : EMetric) : Nat :=
  if m.write_index > 0 then m.write_index - 1 else m.max_history_size - 1

/-- The float payload of the most recently written sample. -/
def latestF32 (m : EMetric) : Rat :=
  (histGet m (latestIndex m)).value.f32

/-- Concrete input for claim C1: a float metric over a capacity-10 buffer
holding the five samples 0, 0, 0, 100, 200 in chronological order. -/
def c1metric : EMetric := mkFloatMetric [116] [0, 0, 0, 100, 200] 10 5 5

/-- Concrete context wrapping c1metric. -/
def c1ctx : EContext := mkCtx1 { metric := c1metric }

/-- Concrete input for claim C2's counterexample: an enabled float metric
whose buffer reference is non-null but whose declared capacity is 0. -/
def c2zeroCapCtx : EContext := mkCtx1 { metric := mkFloatMetric [109] [] 0 0 0 }

/-- Concrete input for claim C2's witness: an enabled float metric whose
history buffer reference is null. -/
def c2nullBufCtx : EContext :=
  mkCtx1
    { metric :=
        { name := [109], type := .float, history := none,
          max_history_size := 4, current_size := 0, write_index := 0,
          enabled := true } }

/-- The first metric of a possibly-absent context, for reading the state
an operation left behind on concrete inputs. -/
def metric0 (ctx? : Option EContext) : EMetric :=
  match ctx? with
  | some ctx =>
    match ctx.system_config with
    | some sc => (metricAt sc 0).metric
    | none => default
  | none => default

/-- Concrete run for claim C3: five inserts of 0, 1, 2, 3, 4 into an
enabled capacity-3 float metric that starts empty. -/
def c3run : Option EContext :=
  [0, 1, 2, 3, 4].foldl
    (fun c q => (embedids_add_datapoint c (some [109]) { f32 := q } 0).2)
    (some (mkCtx1 { metric := mkFloatMetric [109] [0, 0, 0] 3 0 0 }))

/-- The metric state left behind by the c3run inserts. -/
def c3metric : EMetric := metric0 c3run

/-- The [0.0, 100.0] float threshold configuration of claim C4, with both
bound checks enabled. -/
def c4thresholdCfg : EThresholdConfig :=
  { min_threshold := { f32 := 0 }, max_threshold := { f32 := 100 },
    check_min := true, check_max := true }

/-- Concrete context for claim C4: one float metric whose latest (only)
sample is q, carrying one enabled threshold algorithm bounded to
[0.0, 100.0]. -/
def c4ctx (q : Rat) : EContext :=
  mkCtx1
    { metric := mkFloatMetric [99] [q] 10 1 1,
      algorithms := [{ kind := EAlgorithmKind.threshold c4thresholdCfg, enabled := true }],
      num_algorithms := 1 }

/-- Claim C8: a full-width stored metric name of 32 'a' bytes. -/
def c8stored : List Nat := List.replicate 32 97

/-- Claim C8: a 33-byte lookup name sharing the stored name's 32 leading
bytes and ending in 'b'. -/
def c8nameB : List Nat := List.replicate 32 97 ++ [98]

/-- Claim C8: a 33-byte lookup name sharing the stored name's 32 leading
bytes and ending in 'c'. -/
def c8nameC : List Nat := List.replicate 32 97 ++ [99]

/-- Claim C8: a context holding one enabled metric stored under the
32-byte name. -/
def c8ctx : EContext := mkCtx1 { metric := mkFloatMetric c8stored [0, 0] 2 0 0 }

/-- Concrete metric configuration for claim C3's witness. -/
def c3wcfg : EMetricConfig := { metric := mkFloatMetric [109] [0, 0] 2 0 0 }

/-- Concrete system configuration for claim C3's witness. -/
def c3wsc : ESystemConfig :=
  { metrics := [c3wcfg], num_active_metrics := 1, max_metrics := 1 }

/-- Concrete context for claim C3's witness. -/
def c3wctx : EContext := mkCtx1 c3wcfg

/-- Claim C8: the stored name with its case flipped, 32 'A' bytes. -/
def c8upper : List Nat := List.replicate 32 65

/-- Claim C8: a context holding two enabled metrics stored under the same
32-byte name, distinguishable by their buffer capacities. -/
def c8ctx2 : EContext :=
  { system_config := some
      { metrics :=
          [ { metric := mkFloatMetric c8stored [0, 0] 2 0 0 },
            { metric := mkFloatMetric c8stored [0, 0, 0] 3 0 0 } ],
        num_active_metrics := 2, max_metrics := 2 },
    initialized := true }

/-! Helper lemmas. -/

theorem findFirst_lt_length {α : Type} (p : α → Bool) :
    ∀ (l : List α) (i : Nat), findFirst p l = some i → i < l.length := by
  intro l
  induction l with
  | nil => intro i h; simp [findFirst] at h
  | cons a t ih =>
    intro i h
    by_cases hp : p a
    · simp [findFirst, hp] at h
      simp [← h]
    · simp [findFirst, hp] at h
      obtain ⟨j, hj, rfl⟩ := h
      have := ih j hj
      simp
      omega

theorem set_getD_self {α : Type} (d : α) :
    ∀ (l : List α) (i : Nat), i < l.length → l.set i (l.getD i d) = l := by
  intro l
  induction l with
  | nil => intro i h; simp at h
  | cons a t ih =>
    intro i h
    cases i with
    | zero => simp
    | succ n =>
      have hn : n < t.length := by simp at h; omega
      have h1 : (a :: t).getD (n + 1) d = t.getD n d := rfl
      have h2 : ∀ x, (a :: t).set (n + 1) x = a :: t.set n x := fun _ => rfl
      rw [h1, h2, ih n hn]

theorem getD_set_self {α : Type} (d a : α) :
    ∀ (l : List α) (i : Nat), i < l.length → (l.set i a).getD i d = a := by
  intro l
  induction l with
  | nil => intro i h; simp at h
  | cons b t ih =>
    intro i h
    cases i with
    | zero => rfl
    | succ n =>
      have hn : n < t.length := by simp at h; omega
      have h2 : ((b :: t).set (n + 1) a).getD (n + 1) d = (t.set n a).getD n d := rfl
      rw [h2, ih n hn]

theorem getD_set_ne {α : Type} (d a : α) :
    ∀ (l : List α) (i j : Nat), i ≠ j → (l.set i a).getD j d = l.getD j d := by
  intro l
  induction l with
  | nil => intro i j _; simp
  | cons b t ih =>
    intro i j hij
    cases i with
    | zero =>
      cases j with
      | zero => exact absurd rfl hij
      | succ k => rfl
    | succ n =>
      cases j with
      | zero => rfl
      | succ k =>
        have h2 : ((b :: t).set (n + 1) a).getD (k + 1) d = (t.set n a).getD k d := rfl
        have h3 : (b :: t).getD (k + 1) d = t.getD k d := rfl
        rw [h2, h3]
        exact ih n k (by omega)

theorem all_take {α : Type} (p : α → Bool) (l : List α) (n : Nat)
    (h : l.all p = true) : (l.take n).all p = true := by
  simp [List.all_eq_true] at h ⊢
  intro x hx
  exact h x (List.take_subset n l hx)

theorem all_getD {α : Type} (p : α → Bool) (l : List α) (i : Nat) (d : α)
    (h : l.all p = true) (hi : i < l.length) : p (l.getD i d) = true := by
  rw [List.getD_eq_getElem l d hi]
  simp only [List.all_eq_true] at h
  exact h _ (List.getElem_mem hi)

theorem runOneAlgorithm_noCustom (m : EMetric) (a : EAlgorithm)
    (h : algHasNoCustomFn a = true) : (runOneAlgorithm m a).2 = a := by
  rcases ha : a.kind with tc | tc | cc
  · simp [runOneAlgorithm, ha]
  · simp [runOneAlgorithm, ha]
  · have hfn : cc.function = none := by
      simpa [algHasNoCustomFn, ha, Option.isNone_iff_eq_none] using h
    simp [runOneAlgorithm, ha, hfn]

theorem run_algorithms_noCustom (m : EMetric) :
    ∀ l : List EAlgorithm, l.all algHasNoCustomFn = true →
      (run_algorithms m l).2 = l := by
  intro l
  induction l with
  | nil => intro _; rfl
  | cons a rest ih =>
    intro h
    simp only [List.all_cons, Bool.and_eq_true] at h
    obtain ⟨ha, hrest⟩ := h
    have hone := runOneAlgorithm_noCustom m a ha
    by_cases he : a.enabled = false
    · simp [run_algorithms, he, ih hrest]
    · by_cases hr : (runOneAlgorithm m a).1 = EResult.ok
      · simp [run_algorithms, he, hr, hone, ih hrest]
      · simp [run_algorithms, he, hr, hone]

theorem analyze_metric_core_frame (ctx : EContext) (name? : Option (List Nat))
    (h : ctxNoCustomFn ctx = true) :
    (embedids_analyze_metric_core ctx name?).2 = ctx := by
  obtain ⟨sysc, init⟩ := ctx
  by_cases hinit : init = false
  · subst hinit
    simp [embedids_analyze_metric_core]
  · have hinit' : init = true := by revert hinit; cases init <;> simp
    subst hinit'
    rcases name? with _ | name
    · simp [embedids_analyze_metric_core]
    · rcases sysc with _ | sc
      · simp [embedids_analyze_metric_core]
      · rcases hfind : find_metric_idx sc name with _ | i
        · simp [embedids_analyze_metric_core, hfind]
        · by_cases hen : (metricAt sc i).metric.enabled = false
          · simp [embedids_analyze_metric_core, hfind, hen]
          · have hilen : i < sc.metrics.length := by
              have h1 := findFirst_lt_length _ _ _ hfind
              simp only [List.length_take] at h1
              omega
            have hall : sc.metrics.all
                (fun cfg => cfg.algorithms.all algHasNoCustomFn) = true := by
              simpa [ctxNoCustomFn] using h
            have halgs : ((metricAt sc i).algorithms.take
                (metricAt sc i).num_algorithms).all algHasNoCustomFn = true :=
              all_take _ _ _ (all_getD _ sc.metrics i default hall hilen)
            have h2 := run_algorithms_noCustom (metricAt sc i).metric _ halgs
            have hset : sc.metrics.set i (metricAt sc i) = sc.metrics :=
              set_getD_self default sc.metrics i hilen
            simp [embedids_analyze_metric_core, hfind, hen, setMetric, h2,
              List.take_append_drop, hset]


theorem analyze_all_loop_frame :
    ∀ (fuel : Nat) (ctx : EContext) (i : Nat), ctxNoCustomFn ctx = true →
      (analyze_all_loop ctx i fuel).2 = ctx := by
  intro fuel
  induction fuel with
  | zero => intro ctx i _; rfl
  | succ n ih =>
    intro ctx i h
    rcases hsc : ctx.system_config with _ | sc
    · simp [analyze_all_loop, hsc]
    · by_cases hi : i < sc.num_active_metrics
      · by_cases hen : (metricAt sc i).metric.enabled = true
        · have hframe := analyze_metric_core_frame ctx (some (metricAt sc i).metric.name) h
          by_cases hr :
              (embedids_analyze_metric_core ctx (some (metricAt sc i).metric.name)).1
                = EResult.ok
          · simp [analyze_all_loop, hsc, hi, hen, hr, hframe, ih ctx (i + 1) h]
          · simp [analyze_all_loop, hsc, hi, hen, hr, hframe]
        · simp [analyze_all_loop, hsc, hi, hen, ih ctx (i + 1) h]
      · simp [analyze_all_loop, hsc, hi]

theorem analyze_all_core_frame (ctx : EContext) (h : ctxNoCustomFn ctx = true) :
    (embedids_analyze_all_core ctx).2 = ctx := by
  by_cases hinit : ctx.initialized = false
  · simp [embedids_analyze_all_core, hinit]
  · rcases hsc : ctx.system_config with _ | sc
    · simp [embedids_analyze_all_core, hinit, hsc]
    · simp [embedids_analyze_all_core, hinit, hsc,
        analyze_all_loop_frame sc.num_active_metrics ctx 0 h]

/-- Claim C5: for every enabled Trend-kind algorithm, analysis passes on
every input — when the metric holds fewer than windowSize samples or
windowSize is less than 2 it is treated as passing, and when both
conditions are met it still unconditionally passes, regardless of the
configured maximum slope, maximum variance, or expected trend state. -/
theorem C5_trend_algorithm_always_passes :
    (∀ (m : EMetric) (c : ETrendConfig), run_trend_algorithm m c = .ok) ∧
    (∀ (m : EMetric) (c : ETrendConfig) (en : Bool),
      algRunResult m { kind := .trend c, enabled := en } = .ok) := by
  constructor
  · intro m c
    unfold run_trend_algorithm
    split <;> rfl
  · intro m c en
    have h : algRunResult m { kind := .trend c, enabled := en } = run_trend_algorithm m c := rfl
    rw [h]
    unfold run_trend_algorithm
    split <;> rfl

/-- Claim C10: every public operation accepts an absent (null) context
without failure beyond its result code — Cleanup on a null context is a
no-op, IsInitialized returns false, and AddDataPoint, AnalyzeMetric,
AnalyzeAll, GetTrend, and ResetAllMetrics return NotInitialized. -/
theorem C10_null_context_handling :
    embedids_cleanup none = none ∧
    embedids_is_initialized none = false ∧
    (∀ (name? : Option (List Nat)) (v : EValue) (ts : Nat),
      embedids_add_datapoint none name? v ts = (.notInitialized, none)) ∧
    (∀ name? : Option (List Nat),
      embedids_analyze_metric none name? = (.notInitialized, none)) ∧
    embedids_analyze_all none = (.notInitialized, none) ∧
    (∀ (name? : Option (List Nat)) (tn : Bool),
      embedids_get_trend none name? tn = (.notInitialized, none)) ∧
    embedids_reset_all_metrics none = (.notInitialized, none) :=
  ⟨rfl, rfl, fun _ _ _ => rfl, fun _ => rfl, rfl, fun _ _ => rfl, rfl⟩

/-- Claim C7: for every context that is not initialized (freshly zeroed
or just cleaned up), AddDataPoint, AnalyzeMetric, AnalyzeAll, and
ResetAllMetrics all return NotInitialized and leave the context — and
hence the referenced configuration and every history buffer — exactly
unchanged; Cleanup always yields such an uninitialized zeroed context. -/
theorem C7_uninitialized_guard (ctx : EContext) (h : ctx.initialized = false) :
    (∀ (name? : Option (List Nat)) (v : EValue) (ts : Nat),
      embedids_add_datapoint (some ctx) name? v ts = (.notInitialized, some ctx)) ∧
    (∀ name? : Option (List Nat),
      embedids_analyze_metric (some ctx) name? = (.notInitialized, some ctx)) ∧
    embedids_analyze_all (some ctx) = (.notInitialized, some ctx) ∧
    embedids_reset_all_metrics (some ctx) = (.notInitialized, some ctx) ∧
    (∀ c : EContext,
      embedids_cleanup (some c) = some { system_config := none, initialized := false }) := by
  refine ⟨?_, ?_, ?_, ?_, ?_⟩
  · intro name? v ts
    simp [embedids_add_datapoint, embedids_add_datapoint_core, h]
  · intro name?
    simp [embedids_analyze_metric, embedids_analyze_metric_core, h]
  · simp [embedids_analyze_all, embedids_analyze_all_core, h]
  · simp [embedids_reset_all_metrics, embedids_reset_all_metrics_core, h]
  · intro c
    rfl

/-- Witness for C7 at the concrete freshly zeroed context. -/
theorem C7_uninitialized_witness :
    ({} : EContext).initialized = false ∧
    embedids_analyze_all (some ({} : EContext)) = (.notInitialized, some {}) :=
  ⟨rfl, (C7_uninitialized_guard {} rfl).2.2.1⟩

/-- Claim C2 (amended): AddDataPoint on a matched, enabled metric whose
history buffer reference is null fails with InvalidParam and writes no
sample; a declared capacity of 0 with a non-null buffer is not checked
(the write there is out of bounds and undefined behavior in C). This is
the null-buffer half, proved for every initialized context. -/
theorem C2_null_buffer_invalid_param (ctx : EContext) (sc : ESystemConfig) (i : Nat)
    (name : List Nat) (v : EValue) (ts : Nat)
    (hinit : ctx.initialized = true)
    (hsc : ctx.system_config = some sc)
    (hfind : find_metric_idx sc name = some i)
    (hen : (metricAt sc i).metric.enabled = true)
    (hhist : (metricAt sc i).metric.history = none) :
    embedids_add_datapoint (some ctx) (some name) v ts = (.invalidParam, some ctx) := by
  simp [embedids_add_datapoint, embedids_add_datapoint_core, hinit, hsc, hfind, hen, hhist]

/-- Witness for C2 at a concrete context whose metric has a null history
buffer reference. -/
theorem C2_null_buffer_witness :
    embedids_add_datapoint (some c2nullBufCtx) (some [109]) { f32 := 7 } 0
      = (.invalidParam, some c2nullBufCtx) :=
  C2_null_buffer_invalid_param c2nullBufCtx
    { metrics := [{ metric :=
        { name := [109], type := .float, history := none,
          max_history_size := 4, current_size := 0, write_index := 0,
          enabled := true } }],
      num_active_metrics := 1, max_metrics := 1 }
    0 [109] { f32 := 7 } 0 rfl rfl (by decide) (by decide) (by decide)

/-- Counterexample to claim C2 as stated: on a matched, enabled metric
whose capacity is 0 but whose buffer reference is non-null, AddDataPoint
does not fail — it returns Ok (the metric still retains no sample). -/
theorem C2_capacity_zero_not_rejected :
    (embedids_add_datapoint (some c2zeroCapCtx) (some [109]) { f32 := 7 } 0).1
        = EResult.ok ∧
    (metric0 (embedids_add_datapoint (some c2zeroCapCtx) (some [109]) { f32 := 7 } 0).2).current_size
        = 0 := by
  constructor <;> rfl

/-- Claim C3: for every metric with history capacity C greater than 0,
each successful AddDataPoint writes the sample at the current write
cursor, advances the cursor modulo C, and increments the current size
until it saturates at C, after which the size stays pinned at C;
concretely, for capacity 3, inserting 0, 1, 2, 3, 4 in sequence leaves
current size 3, write cursor 5 mod 3 = 2, and retained samples 2, 3, 4. -/
theorem C3_ring_buffer_semantics (ctx : EContext) (sc : ESystemConfig) (i : Nat)
    (name : List Nat) (v : EValue) (ts : Nat) (m : EMetric) (hist : List EDatapoint)
    (hinit : ctx.initialized = true)
    (hsc : ctx.system_config = some sc)
    (hfind : find_metric_idx sc name = some i)
    (hm : (metricAt sc i).metric = m)
    (hen : m.enabled = true)
    (hhist : m.history = some hist)
    (hlen : hist.length = m.max_history_size)
    (hwi : m.write_index < m.max_history_size)
    (hsz : m.current_size ≤ m.max_history_size) :
    (∃ m' : EMetric,
      embedids_add_datapoint (some ctx) (some name) v ts
        = (.ok, some (setMetric ctx sc i { metricAt sc i with metric := m' })) ∧
      m'.max_history_size = m.max_history_size ∧
      m'.write_index = (m.write_index + 1) % m.max_history_size ∧
      m'.current_size = min (m.current_size + 1) m.max_history_size ∧
      histGet m' m.write_index = { value := v, timestamp_ms := ts } ∧
      (∀ j : Nat, j ≠ m.write_index → histGet m' j = histGet m j)) ∧
    c3metric.current_size = 3 ∧
    c3metric.write_index = 2 ∧
    chronValues c3metric = [2, 3, 4] := by
  refine ⟨?_, by decide, by decide, by decide⟩
  refine ⟨{ m with
      history := some (hist.set m.write_index { value := v, timestamp_ms := ts }),
      write_index := (m.write_index + 1) % m.max_history_size,
      current_size :=
        if m.current_size < m.max_history_size then m.current_size + 1
        else m.current_size }, ?_, rfl, rfl, ?_, ?_, ?_⟩
  · simp [embedids_add_datapoint, embedids_add_datapoint_core, hinit, hsc, hfind, hm,
      hen, hhist]
  · show (if m.current_size < m.max_history_size then m.current_size + 1 else m.current_size)
        = min (m.current_size + 1) m.max_history_size
    split <;> omega
  · simp only [histGet, Option.getD_some]
    exact getD_set_self default { value := v, timestamp_ms := ts } hist m.write_index
      (by omega)
  · intro j hj
    simp only [histGet, hhist, Option.getD_some]
    exact getD_set_ne default { value := v, timestamp_ms := ts } hist m.write_index j
      (fun h => hj h.symm)

/-- Witness for C3 at a concrete one-insert run: adding 7 to an enabled
empty capacity-2 float metric stores the sample at slot 0, moves the
cursor to 1, and grows the size to 1. -/
theorem C3_ring_buffer_witness :
    ∃ m' : EMetric,
      embedids_add_datapoint (some c3wctx) (some [109]) { f32 := 7 } 0
        = (.ok, some (setMetric c3wctx c3wsc 0 { metricAt c3wsc 0 with metric := m' })) ∧
      m'.write_index = 1 ∧
      m'.current_size = 1 ∧
      histGet m' 0 = { value := { f32 := 7 }, timestamp_ms := 0 } := by
  obtain ⟨m', h1, _, h3, h4, h5, _⟩ :=
    (C3_ring_buffer_semantics c3wctx c3wsc 0 [109] { f32 := 7 } 0
      (mkFloatMetric [109] [0, 0] 2 0 0) (floatHistory [0, 0])
      rfl rfl (by decide) rfl rfl rfl (by decide) (by decide) (by decide)).1
  refine ⟨m', h1, ?_, ?_, h5⟩
  · rw [h3]; decide
  · rw [h4]; decide

/-- Claim C4: an enabled Threshold algorithm compares only the single
most recently written sample (write cursor minus 1 modulo capacity)
against the enabled bounds with strict inequalities per declared type:
for a float metric bounded to [0.0, 100.0] with both checks enabled the
values 0.0 and 100.0 pass while -0.1 and 100.1 analyze as
ThresholdExceeded; a metric with zero samples always passes and a
boolean-typed metric always passes. -/
theorem C4_threshold_semantics :
    (∀ (m : EMetric) (lo hi : Rat), m.type = .float → 1 ≤ m.current_size →
      run_threshold_algorithm m
          { min_threshold := { f32 := lo }, max_threshold := { f32 := hi },
            check_min := true, check_max := true }
        = if latestF32 m < lo ∨ latestF32 m > hi then .thresholdExceeded else .ok) ∧
    (embedids_analyze_metric (some (c4ctx 0)) (some [99])).1 = .ok ∧
    (embedids_analyze_metric (some (c4ctx 100)) (some [99])).1 = .ok ∧
    (embedids_analyze_metric (some (c4ctx (mkRat (-1) 10))) (some [99])).1 = .thresholdExceeded ∧
    (embedids_analyze_metric (some (c4ctx (mkRat 1001 10))) (some [99])).1 = .thresholdExceeded ∧
    (∀ (m : EMetric) (c : EThresholdConfig), m.current_size = 0 →
      run_threshold_algorithm m c = .ok) ∧
    (∀ (m : EMetric) (c : EThresholdConfig), m.type = .boolean →
      run_threshold_algorithm m c = .ok) := by
  refine ⟨?_, by decide, by decide, by decide, by decide, ?_, ?_⟩
  · intro m lo hi hty hsz
    have h0 : ¬ m.current_size = 0 := by omega
    have hrw : run_threshold_algorithm m
        { min_threshold := { f32 := lo }, max_threshold := { f32 := hi },
          check_min := true, check_max := true }
        = if latestF32 m < lo then .thresholdExceeded
          else if latestF32 m > hi then .thresholdExceeded
          else .ok := by
      simp only [run_threshold_algorithm, h0, if_false, hty, latestF32, latestIndex,
        histGet, eq_self_iff_true, true_and]
    rw [hrw]
    by_cases h1 : latestF32 m < lo
    · rw [if_pos h1, if_pos (Or.inl h1)]
    · rw [if_neg h1]
      by_cases h2 : latestF32 m > hi
      · rw [if_pos h2, if_pos (Or.inr h2)]
      · rw [if_neg h2, if_neg (not_or.mpr ⟨h1, h2⟩)]
  · intro m c h
    simp [run_threshold_algorithm, h]
  · intro m c hty
    by_cases h : m.current_size = 0
    · simp [run_threshold_algorithm, h]
    · simp [run_threshold_algorithm, h, hty]

/-- Witness for C4 applying the float characterization at an in-range
concrete metric. -/
theorem C4_threshold_witness :
    run_threshold_algorithm (mkFloatMetric [99] [5] 10 1 1) c4thresholdCfg = EResult.ok :=
  (C4_threshold_semantics.1 (mkFloatMetric [99] [5] 10 1 1) 0 100 rfl
    (by decide)).trans (by decide)

theorem run_algorithms_fst (m : EMetric) :
    ∀ l : List EAlgorithm, (run_algorithms m l).1 = firstFailure m l := by
  intro l
  induction l with
  | nil => rfl
  | cons a rest ih =>
    by_cases he : a.enabled = false
    · have hnot : ¬ (a.enabled = true ∧ algRunResult m a ≠ EResult.ok) := by
        simp [he]
      simp [run_algorithms, firstFailure, he, hnot, ih]
    · by_cases hr : (runOneAlgorithm m a).1 = EResult.ok
      · have hnot : ¬ (a.enabled = true ∧ algRunResult m a ≠ EResult.ok) := by
          simp [algRunResult, hr]
        simp [run_algorithms, firstFailure, he, hr, hnot, ih, algRunResult]
      · have he2 : a.enabled = true := by revert he; cases a.enabled <;> simp
        have hyes : a.enabled = true ∧ algRunResult m a ≠ EResult.ok :=
          ⟨he2, by simpa [algRunResult] using hr⟩
        simp [run_algorithms, firstFailure, he, hr, hyes, algRunResult]

theorem if_lt_one_eq_max (a : Rat) : (if a < 1 then 1 else a) = max a 1 := by
  rcases lt_or_le a 1 with h | h
  · rw [if_pos h, max_eq_right h.le]
  · rw [if_neg (not_lt.mpr h), max_eq_left h]

theorem get_trend_value_eq_oldest (m : EMetric) (h2 : 2 ≤ m.current_size)
    (hsup : trendSupported m.type = true)
    (hsz : m.current_size ≤ m.max_history_size)
    (hwi : m.write_index < m.max_history_size) :
    get_trend_value m = classifyWindow (oldestWindow m) := by
  have hcap : 0 < m.max_history_size := by omega
  have hSlt : (if m.current_size = m.max_history_size then m.write_index else 0)
      < m.max_history_size := by
    split
    · exact hwi
    · exact hcap
  have hmod : (if m.current_size = m.max_history_size then m.write_index else 0)
      % m.max_history_size
      = (if m.current_size = m.max_history_size then m.write_index else 0) :=
    Nat.mod_eq_of_lt hSlt
  simp only [get_trend_value, oldestWindow, classifyWindow]
  rw [if_neg (by omega : ¬ m.current_size < 2), hsup]
  rcases (by omega : m.current_size = 2 ∨ 3 ≤ m.current_size) with hs | hs
  · simp only [hs] at hmod ⊢
    norm_num [List.range_succ, hmod, if_lt_one_eq_max]
  · have hn : (if m.current_size < 3 then m.current_size else 3) = 3 := by
      rw [if_neg (by omega)]
    have hmin : min m.current_size 3 = 3 := by omega
    norm_num [hn, hmin, List.range_succ, hmod, if_lt_one_eq_max]

/-- Claim C1 (amended): for every initialized context and every enabled
metric of a supported numeric type (float, percentage, rate, or either
unsigned-integer kind) holding at least 2 samples in a well-formed
buffer, GetTrend computes the average of consecutive differences over at
most the three OLDEST retained samples (the window starts at the oldest
retained sample: index 0 while the buffer is not yet full, the write
cursor once it is), oldest-to-newest; firstValue is the oldest value in
that window; threshold = max(|firstValue| * 0.05, 1.0); the result is
Stable when |avgChange| < threshold, Increasing when avgChange > 0, and
Decreasing otherwise. -/
theorem C1_trend_uses_oldest_window (ctx : EContext) (sc : ESystemConfig) (i : Nat)
    (name : List Nat) (m : EMetric)
    (hinit : ctx.initialized = true)
    (hsc : ctx.system_config = some sc)
    (hfind : find_metric_idx sc name = some i)
    (hm : (metricAt sc i).metric = m)
    (hen : m.enabled = true)
    (h2 : 2 ≤ m.current_size)
    (hsup : trendSupported m.type = true)
    (hsz : m.current_size ≤ m.max_history_size)
    (hwi : m.write_index < m.max_history_size) :
    embedids_get_trend (some ctx) (some name) false
      = (EResult.ok, some (classifyWindow (oldestWindow m))) := by
  have hcore : embedids_get_trend (some ctx) (some name) false
      = (EResult.ok, some (get_trend_value m)) := by
    simp [embedids_get_trend, embedids_get_trend_core, hinit, hsc, hfind, hm, hen]
  rw [hcore, get_trend_value_eq_oldest m h2 hsup hsz hwi]

/-- Witness for C1 at a concrete two-sample metric: values 10 then 20
give an average change of 10 against threshold max(0.5, 1) = 1, hence
Increasing. -/
theorem C1_trend_witness :
    embedids_get_trend (some (mkCtx1 { metric := mkFloatMetric [119] [10, 20] 2 2 0 }))
        (some [119]) false
      = (EResult.ok, some ETrend.increasing) := by
  have h := C1_trend_uses_oldest_window
    (mkCtx1 { metric := mkFloatMetric [119] [10, 20] 2 2 0 })
    { metrics := [{ metric := mkFloatMetric [119] [10, 20] 2 2 0 }],
      num_active_metrics := 1, max_metrics := 1 }
    0 [119] (mkFloatMetric [119] [10, 20] 2 2 0)
    rfl rfl (by decide) rfl rfl (by decide) rfl (by decide) (by decide)
  rw [h]
  norm_num [classifyWindow, oldestWindow, histGet, mkFloatMetric, floatHistory, floatDp,
    trendValD, trendVal, List.range_succ, max_def]

/-- Counterexample to claim C1 as stated: for the float samples
0, 0, 0, 100, 200 in a capacity-10 buffer, the claim's most-recent-three
window (0, 100, 200) prescribes Increasing, but embedids_get_trend
reports Stable, because the code's window is the three oldest retained
samples (0, 0, 0). -/
theorem C1_most_recent_window_refuted :
    claimGetTrend c1metric = ETrend.increasing ∧
    embedids_get_trend (some c1ctx) (some [116]) false
      = (EResult.ok, some ETrend.stable) ∧
    ETrend.stable ≠ ETrend.increasing := by
  refine ⟨?_, ?_, by decide⟩
  · norm_num [claimGetTrend, classifyWindow, recentWindow, c1metric, mkFloatMetric,
      histGet, floatHistory, floatDp, trendValD, trendVal, List.range_succ, max_def]
  · have hfind : find_metric_idx
        { metrics := [{ metric := c1metric }], num_active_metrics := 1, max_metrics := 1 }
        [116] = some 0 := by decide
    simp only [c1metric, mkFloatMetric] at hfind
    have hcore : embedids_get_trend (some c1ctx) (some [116]) false
        = (EResult.ok, some (get_trend_value c1metric)) := by
      simp [embedids_get_trend, embedids_get_trend_core, c1ctx, mkCtx1, hfind, metricAt,
        c1metric, mkFloatMetric]
    rw [hcore]
    norm_num [get_trend_value, c1metric, mkFloatMetric, histGet, floatHistory, floatDp,
      trendValD, trendVal, trendSupported, List.range_succ, max_def]

/-- Claim C6: analysis is fail-fast at two nested levels. AnalyzeMetric
iterates the metric's algorithms in stored order, skips algorithms whose
enabled flag is false, and returns the result of the first enabled
algorithm that does not pass — with the slots after it left untouched —
returning Ok when every enabled algorithm passes or there are none
(parts 1 to 3); AnalyzeAll iterates the active metrics in stored order,
skips disabled metrics without treating them as failures, and returns
immediately with the first non-passing per-metric result (parts 4 to 7). -/
theorem C6_fail_fast_analysis :
    (∀ (ctx : EContext) (sc : ESystemConfig) (i : Nat) (name : List Nat),
      ctx.initialized = true → ctx.system_config = some sc →
      find_metric_idx sc name = some i → (metricAt sc i).metric.enabled = true →
      (embedids_analyze_metric (some ctx) (some name)).1
        = firstFailure (metricAt sc i).metric
            ((metricAt sc i).algorithms.take (metricAt sc i).num_algorithms)) ∧
    (∀ (m : EMetric) (a : EAlgorithm) (rest : List EAlgorithm),
      a.enabled = false →
      run_algorithms m (a :: rest)
        = ((run_algorithms m rest).1, a :: (run_algorithms m rest).2)) ∧
    (∀ (m : EMetric) (a : EAlgorithm) (rest : List EAlgorithm),
      a.enabled = true → algRunResult m a ≠ EResult.ok →
      run_algorithms m (a :: rest)
        = (algRunResult m a, (runOneAlgorithm m a).2 :: rest)) ∧
    (∀ (ctx : EContext) (sc : ESystemConfig) (i fuel : Nat),
      ctx.system_config = some sc → i < sc.num_active_metrics →
      (metricAt sc i).metric.enabled = false →
      analyze_all_loop ctx i (fuel + 1) = analyze_all_loop ctx (i + 1) fuel) ∧
    (∀ (ctx : EContext) (sc : ESystemConfig) (i fuel : Nat),
      ctx.system_config = some sc → i < sc.num_active_metrics →
      (metricAt sc i).metric.enabled = true →
      (embedids_analyze_metric_core ctx (some (metricAt sc i).metric.name)).1
        ≠ EResult.ok →
      analyze_all_loop ctx i (fuel + 1)
        = embedids_analyze_metric_core ctx (some (metricAt sc i).metric.name)) ∧
    (∀ (ctx : EContext) (sc : ESystemConfig) (i fuel : Nat),
      ctx.system_config = some sc → i < sc.num_active_metrics →
      (metricAt sc i).metric.enabled = true →
      (embedids_analyze_metric_core ctx (some (metricAt sc i).metric.name)).1
        = EResult.ok →
      analyze_all_loop ctx i (fuel + 1)
        = analyze_all_loop
            (embedids_analyze_metric_core ctx (some (metricAt sc i).metric.name)).2
            (i + 1) fuel) ∧
    (∀ (ctx : EContext) (sc : ESystemConfig), ctx.initialized = true →
      ctx.system_config = some sc →
      embedids_analyze_all (some ctx)
        = ((analyze_all_loop ctx 0 sc.num_active_metrics).1,
            some (analyze_all_loop ctx 0 sc.num_active_metrics).2)) := by
  refine ⟨?_, ?_, ?_, ?_, ?_, ?_, ?_⟩
  · intro ctx sc i name hinit hsc hfind hen
    simp [embedids_analyze_metric, embedids_analyze_metric_core, hinit, hsc, hfind, hen,
      run_algorithms_fst]
  · intro m a rest he
    simp [run_algorithms, he]
  · intro m a rest he hr
    have hr2 : ¬ (runOneAlgorithm m a).1 = EResult.ok := by simpa [algRunResult] using hr
    simp [run_algorithms, he, hr2, algRunResult]
  · intro ctx sc i fuel hsc hi hen
    simp [analyze_all_loop, hsc, hi, hen]
  · intro ctx sc i fuel hsc hi hen hr
    simp [analyze_all_loop, hsc, hi, hen, hr]
  · intro ctx sc i fuel hsc hi hen hr
    simp [analyze_all_loop, hsc, hi, hen, hr]
  · intro ctx sc hinit hsc
    simp [embedids_analyze_all, embedids_analyze_all_core, hinit, hsc]

/-- Witness for C6's fail-fast step: an exceeded threshold algorithm
stops the scan, and the second algorithm slot is returned untouched. -/
theorem C6_fail_fast_witness :
    run_algorithms (mkFloatMetric [99] [mkRat 1001 10] 10 1 1)
        [{ kind := EAlgorithmKind.threshold c4thresholdCfg, enabled := true },
          { kind := EAlgorithmKind.threshold c4thresholdCfg, enabled := true }]
      = (EResult.thresholdExceeded,
          [{ kind := EAlgorithmKind.threshold c4thresholdCfg, enabled := true },
            { kind := EAlgorithmKind.threshold c4thresholdCfg, enabled := true }]) := by
  have h := C6_fail_fast_analysis.2.2.1 (mkFloatMetric [99] [mkRat 1001 10] 10 1 1)
    { kind := EAlgorithmKind.threshold c4thresholdCfg, enabled := true }
    [{ kind := EAlgorithmKind.threshold c4thresholdCfg, enabled := true }]
    rfl (by decide)
  exact h.trans rfl

/-- Claim C9: for every initialized context whose metrics carry only
built-in algorithms (Threshold or Trend kinds, no registered custom
callback), AnalyzeMetric and AnalyzeAll are read-only: they return the
context — and with it the system configuration, every history buffer,
every current size and every write cursor — exactly unchanged. (The
hypothesis is stated for any context; the guards and lookups of the two
operations are covered as well.) -/
theorem C9_analysis_read_only (ctx : EContext) (h : ctxNoCustomFn ctx = true) :
    (∀ name? : Option (List Nat),
      embedids_analyze_metric (some ctx) name?
        = ((embedids_analyze_metric (some ctx) name?).1, some ctx)) ∧
    embedids_analyze_all (some ctx)
      = ((embedids_analyze_all (some ctx)).1, some ctx) := by
  constructor
  · intro name?
    simp [embedids_analyze_metric, analyze_metric_core_frame ctx name? h]
  · simp [embedids_analyze_all, analyze_all_core_frame ctx h]

/-- Witness for C9 at a concrete context carrying one enabled built-in
threshold algorithm. -/
theorem C9_analysis_read_only_witness :
    embedids_analyze_metric (some (c4ctx 5)) (some [99])
      = ((embedids_analyze_metric (some (c4ctx 5)) (some [99])).1, some (c4ctx 5)) :=
  (C9_analysis_read_only (c4ctx 5) (by decide)).1 (some [99])

/-- Claim C8: metric lookup compares the requested name against each
stored name case-sensitively but only up to the fixed maximum name
length (32, modelled from the spec since the header is absent), so the
distinct 33-byte names ending in 'b' and in 'c', which agree on their 32
leading bytes, both match the metric stored under the 32-byte name; a
case-flipped name does not match; and with two matching metrics the
first in stored order is used. -/
theorem C8_bounded_name_comparison :
    c8nameB ≠ c8nameC ∧
    c8nameB.take EMBEDIDS_MAX_METRIC_NAME_LEN
      = c8nameC.take EMBEDIDS_MAX_METRIC_NAME_LEN ∧
    c8stored ≠ c8nameB ∧
    find_metric_config c8ctx c8nameB = some 0 ∧
    find_metric_config c8ctx c8nameC = some 0 ∧
    find_metric_config c8ctx c8upper = none ∧
    (embedids_add_datapoint (some c8ctx) (some c8nameC) { f32 := 1 } 0).1 = EResult.ok ∧
    find_metric_config c8ctx2 c8nameB = some 0 := by
  refine ⟨by decide, by decide, by decide, by decide, by decide, by decide, rfl, by decide⟩

end EmbedIDS
